import Mathlib

/-!
# Layered configuration resolution of `server/config/config.go`

A shallow embedding of `Parse`, `parseYamlCfg`, `getConfigOpt` and `getFlagOpt`.

The three external collaborators are taken through their interfaces:

* `yaml.File` (go-gypsy) is known to the source only through `Get`, which
  answers a key with a text and an error; `YamlFile.Get` returns `none` for
  a non-nil error.
* `cli.Context` (urfave/cli) is known through `IsSet`, `String` and `Bool`.
* the filesystem is known through `yaml.ReadFile` and `os.Lstat`.

Go strings are embedded as Lean strings (sequences of Unicode scalar values).
-/

namespace config

/-! ## External interfaces -/

/-- The parsed document as the source sees it: `Get name` is `some val` when
`yamlCfg.Get(name)` returns `val` with a nil error and `none` otherwise. -/
structure YamlFile where
  Get : String → Option String

/-- The command-line context: `IsSet`, `String` and `Bool` of `cli.Context`. -/
structure Context where
  IsSet : String → Bool
  Bool : String → Bool
  String : String → String

/-- The filesystem: `ReadFile` is `yaml.ReadFile` (the error carries the text
of `err.Error()`), `Lstat path` is true when `os.Lstat(path)` has a nil error. -/
structure FileSystem where
  ReadFile : String → Except String YamlFile
  Lstat : String → Bool

/-! ## Library functions used by the source -/

/-- The predicate `unicode.IsSpace`: the Latin-1 cases
`'\t', '\n', '\v', '\f', '\r', ' ', U+0085, U+00A0` and the `White_Space`
table above Latin-1. -/
def isSpace (r : Char) : Bool :=
  let n := r.toNat
  (9 ≤ n && n ≤ 13) || n == 32 || n == 133 || n == 160 || n == 5760 ||
    (8192 ≤ n && n ≤ 8202) || n == 8232 || n == 8233 || n == 8239 ||
    n == 8287 || n == 12288

/-- The scan of `strings.Fields`: `cur` is the field being read (empty when
between fields); a white space character closes a non-empty field. -/
def fieldsAux : List Char → List Char → List String
  | cur, [] => if cur = [] then [] else [String.mk cur]
  | cur, r :: rs =>
    if isSpace r then
      if cur = [] then fieldsAux [] rs else String.mk cur :: fieldsAux [] rs
    else fieldsAux (cur ++ [r]) rs

/-- The function `strings.Fields`: the maximal runs of non white space
characters of `s`, in order. -/
def Fields (s : String) : List String := fieldsAux [] s.data

/-- The function `strconv.ParseBool`: the value and whether the error is nil.
On a text outside the twelve literals the value is `false`. -/
def ParseBool (str : String) : Bool × Bool :=
  if str = "1" ∨ str = "t" ∨ str = "T" ∨ str = "true" ∨ str = "TRUE" ∨ str = "True" then
    (true, true)
  else if str = "0" ∨ str = "f" ∨ str = "F" ∨ str = "false" ∨ str = "FALSE" ∨ str = "False" then
    (false, true)
  else (false, false)

/-! ## Go maps `map[string]bool` -/

/-- A non-nil `map[string]bool`, as its entries with pairwise distinct keys in
order of first insertion. -/
abbrev GoMap := List (String × Bool)

/-- The assignment `m[k] = v`. -/
def GoMap.set : GoMap → String → Bool → GoMap
  | [], k, v => [(k, v)]
  | (k', v') :: m, k, v => if k' = k then (k, v) :: m else (k', v') :: GoMap.set m k v

/-- The read `m[k]`: the stored value, or `false` for a missing key. -/
def GoMap.get : GoMap → String → Bool
  | [], _ => false
  | (k', v') :: m, k => if k' = k then v' else GoMap.get m k

/-- The loop `for _, id := range ids { m[id] = true }`. -/
def setAll (m : GoMap) (ids : List String) : GoMap :=
  ids.foldl (fun m id => GoMap.set m id true) m

/-! ## The configuration -/

/-- The struct `Config`; `WhiteList` is `none` for the nil map. -/
structure Config where
  AddrDev : String
  AddrUser : String
  AddrHttpProxy : String
  DisableSignUp : Bool
  HttpProxyRedirURL : String
  HttpProxyRedirDomain : String
  HttpProxyPort : Int
  SslCert : String
  SslKey : String
  SslCacert : String
  WebUISslCert : String
  WebUISslKey : String
  Token : String
  DevAuthUrl : String
  WhiteList : Option GoMap
  DB : String
  LocalAuth : Bool
  SeparateSslConfig : Bool
  deriving DecidableEq, Repr

/-- The kinds of destination the type switches of `getConfigOpt` and
`getFlagOpt` write: `ofYaml` is the right-hand side of the assignment in
`getConfigOpt`, `ofFlag` the one in `getFlagOpt`. No call in the source passes
an `*int`, so that case has no instance. -/
class OptKind (α : Type) where
  ofYaml : String → α
  ofFlag : Context → String → α

/-- The case `*string`: `*opt = val` and `*opt = c.String(name)`. -/
instance : OptKind String where
  ofYaml := fun val => val
  ofFlag := fun c name => c.String name

/-- The case `*bool`: `*opt, _ = strconv.ParseBool(val)` and `*opt = c.Bool(name)`. -/
instance : OptKind Bool where
  ofYaml := fun val => (ParseBool val).1
  ofFlag := fun c name => c.Bool name

/-- The function `getConfigOpt`: the new content of the destination `opt`. -/
def getConfigOpt {α : Type} [OptKind α] (yamlCfg : YamlFile) (name : String) (opt : α) : α :=
  match yamlCfg.Get name with
  | none => opt
  | some val => OptKind.ofYaml val

/-- The function `getFlagOpt`: the new content of the destination `opt`. -/
def getFlagOpt {α : Type} [OptKind α] (c : Context) (name : String) (opt : α) : α :=
  if !c.IsSet name then opt else OptKind.ofFlag c name

/-- The body of `parseYamlCfg` after the document has been read (lines 57-87). -/
def overlayYaml (yamlCfg : YamlFile) (cfg : Config) : Config :=
  let cfg := { cfg with AddrDev := getConfigOpt yamlCfg "addr-dev" cfg.AddrDev }
  let cfg := { cfg with AddrUser := getConfigOpt yamlCfg "addr-user" cfg.AddrUser }
  let cfg := { cfg with AddrHttpProxy := getConfigOpt yamlCfg "addr-http-proxy" cfg.AddrHttpProxy }
  let cfg := { cfg with DisableSignUp := getConfigOpt yamlCfg "disable-sign-up" cfg.DisableSignUp }
  let cfg := { cfg with
    HttpProxyRedirURL := getConfigOpt yamlCfg "http-proxy-redir-url" cfg.HttpProxyRedirURL }
  let cfg := { cfg with
    HttpProxyRedirDomain := getConfigOpt yamlCfg "http-proxy-redir-domain" cfg.HttpProxyRedirDomain }
  let cfg := { cfg with SslCert := getConfigOpt yamlCfg "ssl-cert" cfg.SslCert }
  let cfg := { cfg with SslKey := getConfigOpt yamlCfg "ssl-key" cfg.SslKey }
  let cfg := { cfg with SslCacert := getConfigOpt yamlCfg "ssl-cacert" cfg.SslCacert }
  let cfg := { cfg with
    SeparateSslConfig := getConfigOpt yamlCfg "separate-ssl-config" cfg.SeparateSslConfig }
  let cfg :=
    if cfg.SeparateSslConfig then
      let cfg := { cfg with WebUISslCert := getConfigOpt yamlCfg "webui-ssl-cert" cfg.WebUISslCert }
      { cfg with WebUISslKey := getConfigOpt yamlCfg "webui-ssl-key" cfg.WebUISslKey }
    else cfg
  let cfg := { cfg with Token := getConfigOpt yamlCfg "token" cfg.Token }
  let cfg := { cfg with DevAuthUrl := getConfigOpt yamlCfg "dev-auth-url" cfg.DevAuthUrl }
  let cfg := { cfg with DB := getConfigOpt yamlCfg "db" cfg.DB }
  let cfg := { cfg with LocalAuth := getConfigOpt yamlCfg "local-auth" cfg.LocalAuth }
  match yamlCfg.Get "white-list" with
  | some val =>
    if val ≠ "*" ∧ val ≠ "\"*\"" then
      { cfg with WhiteList := some (setAll [] (Fields val)) }
    else cfg
  | none => cfg

/-- The function `parseYamlCfg`: the error, or the configuration after the
overlay of the document. -/
def parseYamlCfg (fs : FileSystem) (cfg : Config) (conf : String) : Except String Config :=
  match fs.ReadFile conf with
  | .error err => .error ("read config file: " ++ err)
  | .ok yamlCfg => .ok (overlayYaml yamlCfg cfg)

/-- The composite literal at the head of `Parse` (lines 109-114). -/
def defaults : Config :=
  { AddrDev := ":5912", AddrUser := ":5913", AddrHttpProxy := "", DisableSignUp := false,
    HttpProxyRedirURL := "", HttpProxyRedirDomain := "", HttpProxyPort := 0,
    SslCert := "", SslKey := "", SslCacert := "", WebUISslCert := "", WebUISslKey := "",
    Token := "", DevAuthUrl := "", WhiteList := none, DB := "sqlite://rttys.db",
    LocalAuth := true, SeparateSslConfig := false }

/-- The file step of `Parse` (lines 116-122). -/
def fileLayer (fs : FileSystem) (c : Context) : Except String Config :=
  let cfg := defaults
  let conf := c.String "conf"
  if conf ≠ "" then parseYamlCfg fs cfg conf else .ok cfg

/-- The flag step of `Parse` (lines 124-160). -/
def flagLayer (c : Context) (cfg : Config) : Config :=
  let cfg := { cfg with AddrDev := getFlagOpt c "addr-dev" cfg.AddrDev }
  let cfg := { cfg with AddrUser := getFlagOpt c "addr-user" cfg.AddrUser }
  let cfg := { cfg with AddrHttpProxy := getFlagOpt c "addr-http-proxy" cfg.AddrHttpProxy }
  let cfg := { cfg with
    HttpProxyRedirURL := getFlagOpt c "http-proxy-redir-url" cfg.HttpProxyRedirURL }
  let cfg := { cfg with
    HttpProxyRedirDomain := getFlagOpt c "http-proxy-redir-domain" cfg.HttpProxyRedirDomain }
  let cfg := { cfg with DisableSignUp := getFlagOpt c "disable-sign-up" cfg.DisableSignUp }
  let cfg := { cfg with DevAuthUrl := getFlagOpt c "dev-auth-url" cfg.DevAuthUrl }
  let cfg := { cfg with LocalAuth := getFlagOpt c "local-auth" cfg.LocalAuth }
  let cfg := { cfg with Token := getFlagOpt c "token" cfg.Token }
  let cfg := { cfg with DB := getFlagOpt c "db" cfg.DB }
  let cfg := { cfg with SslCacert := getFlagOpt c "ssl-cacert" cfg.SslCacert }
  let cfg := { cfg with SslCert := getFlagOpt c "ssl-cert" cfg.SslCert }
  let cfg := { cfg with SslKey := getFlagOpt c "ssl-key" cfg.SslKey }
  let cfg := { cfg with
    SeparateSslConfig := getFlagOpt c "separate-ssl-config" cfg.SeparateSslConfig }
  let cfg :=
    if cfg.SeparateSslConfig then
      let cfg := { cfg with WebUISslCert := getFlagOpt c "webui-ssl-cert" cfg.WebUISslCert }
      { cfg with WebUISslKey := getFlagOpt c "webui-ssl-key" cfg.WebUISslKey }
    else
      let cfg := { cfg with WebUISslCert := cfg.SslCert }
      { cfg with WebUISslKey := cfg.SslKey }
  if c.IsSet "white-list" then
    let whiteList := c.String "white-list"
    if whiteList = "*" then
      { cfg with WhiteList := none }
    else
      { cfg with WhiteList := some (setAll [] (Fields whiteList)) }
  else cfg

/-- The path checks at the end of `Parse` (lines 162-192). -/
def checkPaths (fs : FileSystem) (cfg : Config) : Except String Config :=
  if cfg.SslCacert ≠ "" ∧ fs.Lstat cfg.SslCacert = false then
    .error ("SslCacert \"" ++ cfg.SslCacert ++ "\" not exist")
  else if cfg.SslCert ≠ "" ∧ fs.Lstat cfg.SslCert = false then
    .error ("SslCert \"" ++ cfg.SslCert ++ "\" not exist")
  else if cfg.SslKey ≠ "" ∧ fs.Lstat cfg.SslKey = false then
    .error ("SslKey \"" ++ cfg.SslKey ++ "\" not exist")
  else if cfg.WebUISslCert ≠ "" ∧ fs.Lstat cfg.WebUISslCert = false then
    .error ("WebUISslCert \"" ++ cfg.WebUISslCert ++ "\" not exist")
  else if cfg.WebUISslKey ≠ "" ∧ fs.Lstat cfg.WebUISslKey = false then
    .error ("WebUISslKey \"" ++ cfg.WebUISslKey ++ "\" not exist")
  else .ok cfg

/-- The function `Parse`: the error, or the resolved configuration. -/
def Parse (fs : FileSystem) (c : Context) : Except String Config :=
  match fileLayer fs c with
  | .error err => .error err
  | .ok cfg => checkPaths fs (flagLayer c cfg)

/-! ## Concrete inputs -/

/-- A document given by its scalar top-level entries. -/
def docOf (entries : List (String × String)) : YamlFile :=
  ⟨fun name => entries.lookup name⟩

/-- A context in which exactly the listed string flags are set; `conf` is the
value of the `conf` flag. -/
def ctxOf (conf : String) (flags : List (String × String)) : Context :=
  { IsSet := fun name => (flags.lookup name).isSome
    String := fun name => if name = "conf" then conf else (flags.lookup name).getD ""
    Bool := fun name => (ParseBool ((flags.lookup name).getD "")).1 }

/-- A filesystem with one readable document at `conf` and the listed existing
paths. -/
def fsOf (conf : String) (doc : YamlFile) (existing : List String) : FileSystem :=
  { ReadFile := fun p => if p = conf then .ok doc else .error ("open " ++ p ++ ": no such file or directory")
    Lstat := fun p => existing.contains p }


/-! ## The layering rule in the words of the specification -/

/-- The value the file layer has for `name`: none when no file is given
(`conf` is empty), when the file cannot be read, or when the document has no
value for `name`. -/
def fileValue (fs : FileSystem) (c : Context) (name : String) : Option String :=
  if c.String "conf" = "" then none
  else
    match fs.ReadFile (c.String "conf") with
    | .ok yamlCfg => yamlCfg.Get name
    | .error _ => none

/-- Flag over file over default, for a string option. -/
def layeredString (fs : FileSystem) (c : Context) (name dflt : String) : String :=
  if c.IsSet name = true then c.String name
  else
    match fileValue fs c name with
    | some val => val
    | none => dflt

/-- Flag over file over default, for a boolean option; the file's text is read
as a boolean by `ParseBool`. -/
def layeredBool (fs : FileSystem) (c : Context) (name : String) (dflt : Bool) : Bool :=
  if c.IsSet name = true then c.Bool name
  else
    match fileValue fs c name with
    | some val => (ParseBool val).1
    | none => dflt

/-- An option is mentioned by neither layer: its flag is not set and the file
layer has no value for its key. -/
def unmentioned (fs : FileSystem) (c : Context) (name : String) : Prop :=
  c.IsSet name = false ∧ fileValue fs c name = none

/-- The five path fields in the order in which `Parse` checks them, each with
the name used in the error message. -/
def pathFields (cfg : Config) : List (String × String) :=
  [("SslCacert", cfg.SslCacert), ("SslCert", cfg.SslCert), ("SslKey", cfg.SslKey),
   ("WebUISslCert", cfg.WebUISslCert), ("WebUISslKey", cfg.WebUISslKey)]

/-- A path field is missing: its path is non-empty and does not exist. -/
def missing (fs : FileSystem) (p : String × String) : Bool :=
  p.2 ≠ "" && !fs.Lstat p.2

/-- The first missing path field in checking order. -/
def firstMissing (fs : FileSystem) (cfg : Config) : Option (String × String) :=
  (pathFields cfg).find? (missing fs)

/-- The text of the error for a missing path field. -/
def notExist (p : String × String) : String :=
  p.1 ++ " \"" ++ p.2 ++ "\" not exist"

/-- The whitespace-separated tokens of a text: cut the text at every white
space character and keep the non-empty pieces. -/
def tokens (s : String) : List String :=
  ((s.data.splitOnP isSpace).filter (fun w => !w.isEmpty)).map String.mk

/-- The white-list text of the deciding layer: the flag's when the flag is
set, else the file's. -/
def whiteListValue (fs : FileSystem) (c : Context) : Option String :=
  if c.IsSet "white-list" = true then some (c.String "white-list")
  else fileValue fs c "white-list"

/-! ## Named inputs -/

/-- A file that sets both listen addresses. -/
def addrFs : FileSystem :=
  fsOf "rttys.conf" (docOf [("addr-dev", ":6000"), ("addr-user", ":6001")]) []

/-- A command line that names the file and sets the user listen address. -/
def addrCtx : Context := ctxOf "rttys.conf" [("addr-user", ":7001")]

/-- A file that sets only the device certificate, which exists. -/
def certFs : FileSystem :=
  fsOf "rttys.conf" (docOf [("ssl-cert", "/etc/rttys/cert.pem")]) ["/etc/rttys/cert.pem"]

/-- A command line that names the file and sets no other flag. -/
def confOnlyCtx : Context := ctxOf "rttys.conf" []

/-- A filesystem without any entry. -/
def emptyFs : FileSystem := fsOf "rttys.conf" (docOf []) []

/-- A command line without any flag. -/
def noFlagsCtx : Context := ctxOf "" []

/-- A file in separate TLS mode with its own webui certificate and key; only
the device certificate and key exist. -/
def separateFs : FileSystem :=
  fsOf "rttys.conf"
    (docOf [("ssl-cert", "/dev.crt"), ("ssl-key", "/dev.key"), ("separate-ssl-config", "true"),
      ("webui-ssl-cert", "/web.crt"), ("webui-ssl-key", "/web.key")])
    ["/dev.crt", "/dev.key"]

/-- A command line that names the file and switches separate TLS mode off. -/
def sharedCtx : Context := ctxOf "rttys.conf" [("separate-ssl-config", "false")]

/-- A file naming a device certificate and key of which neither exists. -/
def missingFs : FileSystem :=
  fsOf "rttys.conf" (docOf [("ssl-cert", "/dev.crt"), ("ssl-key", "/dev.key")]) []

/-- A filesystem on which the configuration file cannot be opened. -/
def unreadableFs : FileSystem :=
  { ReadFile := fun _ => .error "open rttys.conf: no such file or directory"
    Lstat := fun _ => true }

/-- A command line without file whose white-list flag is set to the empty
text. -/
def emptyListCtx : Context := ctxOf "" [("white-list", "")]

/-- A file that restricts the whitelist to `alice` and `bob`. -/
def listFs : FileSystem := fsOf "rttys.conf" (docOf [("white-list", "alice bob")]) []

/-- A command line that names the file and sets the white-list flag to the
quoted wildcard. -/
def quotedStarCtx : Context := ctxOf "rttys.conf" [("white-list", "\"*\"")]

/-- A command line that names the file and sets the white-list flag to the
wildcard. -/
def starCtx : Context := ctxOf "rttys.conf" [("white-list", "*")]

/-- A command line that names the file and sets the white-list flag to `carol`. -/
def carolCtx : Context := ctxOf "rttys.conf" [("white-list", "carol")]

/-- The configuration resolved from `separateFs` and `sharedCtx`. -/
def sharedCfg : Config :=
  { defaults with SslCert := "/dev.crt", SslKey := "/dev.key",
                  WebUISslCert := "/dev.crt", WebUISslKey := "/dev.key" }

/-- The configuration resolved from `emptyFs` and `emptyListCtx`, and from
`emptyFs` and `blankListCtx`. -/
def emptyListCfg : Config := { defaults with WhiteList := some [] }

/-- The seventeen keys the file layer reads. -/
def recognisedKeys : List String :=
  ["addr-dev", "addr-user", "addr-http-proxy", "disable-sign-up", "http-proxy-redir-url",
   "http-proxy-redir-domain", "ssl-cert", "ssl-key", "ssl-cacert", "separate-ssl-config",
   "webui-ssl-cert", "webui-ssl-key", "token", "dev-auth-url", "db", "local-auth",
   "white-list"]

/-- A file in separate TLS mode with its own webui certificate and key, which
do not exist; the device paths and the paths of `webFlagsCtx` exist. -/
def ownWebFs : FileSystem :=
  fsOf "rttys.conf"
    (docOf [("ssl-cert", "/dev.crt"), ("ssl-key", "/dev.key"), ("separate-ssl-config", "true"),
      ("webui-ssl-cert", "/web.crt"), ("webui-ssl-key", "/web.key")])
    ["/dev.crt", "/dev.key", "/flag.crt", "/flag.key"]

/-- A command line that names the file and sets both webui flags. -/
def webFlagsCtx : Context :=
  ctxOf "rttys.conf" [("webui-ssl-cert", "/flag.crt"), ("webui-ssl-key", "/flag.key")]

/-- The configuration resolved from `ownWebFs` and `webFlagsCtx`. -/
def webFlagsCfg : Config :=
  { defaults with SslCert := "/dev.crt", SslKey := "/dev.key", SeparateSslConfig := true,
                  WebUISslCert := "/flag.crt", WebUISslKey := "/flag.key" }

/-- A file whose `local-auth` text is not a boolean literal. -/
def maybeFs : FileSystem := fsOf "rttys.conf" (docOf [("local-auth", "maybe")]) []

/-- The document of `addrFs` with two keys the file layer does not read. -/
def addrExtraFs : FileSystem :=
  fsOf "rttys.conf"
    (docOf [("log-level", "debug"), ("addr-dev", ":6000"), ("addr-user", ":6001"),
      ("http-proxy-port", "8080")]) []

/-- A document that gives the webui certificate and key without asking for
separate TLS mode. -/
def webOnlyDoc : YamlFile :=
  docOf [("ssl-cert", "/dev.crt"), ("ssl-key", "/dev.key"),
    ("webui-ssl-cert", "/web.crt"), ("webui-ssl-key", "/web.key")]

/-- A file holding `webOnlyDoc`; all four paths exist. -/
def webOnlyFs : FileSystem :=
  fsOf "rttys.conf" webOnlyDoc ["/dev.crt", "/dev.key", "/web.crt", "/web.key"]

/-- A command line that names the file and switches separate TLS mode on. -/
def separateCtx : Context := ctxOf "rttys.conf" [("separate-ssl-config", "true")]

/-- The configuration resolved from `webOnlyFs` and `separateCtx`. -/
def separateCfg : Config :=
  { defaults with SslCert := "/dev.crt", SslKey := "/dev.key", SeparateSslConfig := true }

/-- A command line without file whose white-list flag is set to two spaces. -/
def blankListCtx : Context := ctxOf "" [("white-list", "  ")]

/-! ## Projections of the two layers -/

theorem flagLayer_fields (c : Context) (cfg : Config) :
    (flagLayer c cfg).AddrDev = getFlagOpt c "addr-dev" cfg.AddrDev ∧
    (flagLayer c cfg).AddrUser = getFlagOpt c "addr-user" cfg.AddrUser ∧
    (flagLayer c cfg).AddrHttpProxy = getFlagOpt c "addr-http-proxy" cfg.AddrHttpProxy ∧
    (flagLayer c cfg).DisableSignUp = getFlagOpt c "disable-sign-up" cfg.DisableSignUp ∧
    (flagLayer c cfg).HttpProxyRedirURL
      = getFlagOpt c "http-proxy-redir-url" cfg.HttpProxyRedirURL ∧
    (flagLayer c cfg).HttpProxyRedirDomain
      = getFlagOpt c "http-proxy-redir-domain" cfg.HttpProxyRedirDomain ∧
    (flagLayer c cfg).HttpProxyPort = cfg.HttpProxyPort ∧
    (flagLayer c cfg).SslCert = getFlagOpt c "ssl-cert" cfg.SslCert ∧
    (flagLayer c cfg).SslKey = getFlagOpt c "ssl-key" cfg.SslKey ∧
    (flagLayer c cfg).SslCacert = getFlagOpt c "ssl-cacert" cfg.SslCacert ∧
    (flagLayer c cfg).Token = getFlagOpt c "token" cfg.Token ∧
    (flagLayer c cfg).DevAuthUrl = getFlagOpt c "dev-auth-url" cfg.DevAuthUrl ∧
    (flagLayer c cfg).DB = getFlagOpt c "db" cfg.DB ∧
    (flagLayer c cfg).LocalAuth = getFlagOpt c "local-auth" cfg.LocalAuth ∧
    (flagLayer c cfg).SeparateSslConfig
      = getFlagOpt c "separate-ssl-config" cfg.SeparateSslConfig := by
  unfold flagLayer
  dsimp only
  split_ifs <;> simp

theorem flagLayer_webui (c : Context) (cfg : Config) :
    (flagLayer c cfg).WebUISslCert
      = (if getFlagOpt c "separate-ssl-config" cfg.SeparateSslConfig = true then
          getFlagOpt c "webui-ssl-cert" cfg.WebUISslCert
        else getFlagOpt c "ssl-cert" cfg.SslCert) ∧
    (flagLayer c cfg).WebUISslKey
      = (if getFlagOpt c "separate-ssl-config" cfg.SeparateSslConfig = true then
          getFlagOpt c "webui-ssl-key" cfg.WebUISslKey
        else getFlagOpt c "ssl-key" cfg.SslKey) := by
  unfold flagLayer
  dsimp only
  split_ifs <;> simp

theorem flagLayer_WhiteList (c : Context) (cfg : Config) :
    (flagLayer c cfg).WhiteList
      = (if c.IsSet "white-list" = true then
          (if c.String "white-list" = "*" then none
           else some (setAll [] (Fields (c.String "white-list"))))
        else cfg.WhiteList) := by
  unfold flagLayer
  dsimp only
  split_ifs <;> simp

theorem overlayYaml_fields (y : YamlFile) (cfg : Config) :
    (overlayYaml y cfg).AddrDev = getConfigOpt y "addr-dev" cfg.AddrDev ∧
    (overlayYaml y cfg).AddrUser = getConfigOpt y "addr-user" cfg.AddrUser ∧
    (overlayYaml y cfg).AddrHttpProxy = getConfigOpt y "addr-http-proxy" cfg.AddrHttpProxy ∧
    (overlayYaml y cfg).DisableSignUp = getConfigOpt y "disable-sign-up" cfg.DisableSignUp ∧
    (overlayYaml y cfg).HttpProxyRedirURL
      = getConfigOpt y "http-proxy-redir-url" cfg.HttpProxyRedirURL ∧
    (overlayYaml y cfg).HttpProxyRedirDomain
      = getConfigOpt y "http-proxy-redir-domain" cfg.HttpProxyRedirDomain ∧
    (overlayYaml y cfg).HttpProxyPort = cfg.HttpProxyPort ∧
    (overlayYaml y cfg).SslCert = getConfigOpt y "ssl-cert" cfg.SslCert ∧
    (overlayYaml y cfg).SslKey = getConfigOpt y "ssl-key" cfg.SslKey ∧
    (overlayYaml y cfg).SslCacert = getConfigOpt y "ssl-cacert" cfg.SslCacert ∧
    (overlayYaml y cfg).Token = getConfigOpt y "token" cfg.Token ∧
    (overlayYaml y cfg).DevAuthUrl = getConfigOpt y "dev-auth-url" cfg.DevAuthUrl ∧
    (overlayYaml y cfg).DB = getConfigOpt y "db" cfg.DB ∧
    (overlayYaml y cfg).LocalAuth = getConfigOpt y "local-auth" cfg.LocalAuth ∧
    (overlayYaml y cfg).SeparateSslConfig
      = getConfigOpt y "separate-ssl-config" cfg.SeparateSslConfig := by
  unfold overlayYaml
  dsimp only
  split <;> split_ifs <;> simp

theorem overlayYaml_webui (y : YamlFile) (cfg : Config) :
    (overlayYaml y cfg).WebUISslCert
      = (if getConfigOpt y "separate-ssl-config" cfg.SeparateSslConfig = true then
          getConfigOpt y "webui-ssl-cert" cfg.WebUISslCert
        else cfg.WebUISslCert) ∧
    (overlayYaml y cfg).WebUISslKey
      = (if getConfigOpt y "separate-ssl-config" cfg.SeparateSslConfig = true then
          getConfigOpt y "webui-ssl-key" cfg.WebUISslKey
        else cfg.WebUISslKey) := by
  unfold overlayYaml
  dsimp only
  split <;> split_ifs <;> simp

theorem overlayYaml_WhiteList (y : YamlFile) (cfg : Config) :
    (overlayYaml y cfg).WhiteList
      = (match y.Get "white-list" with
        | some val =>
          if val ≠ "*" ∧ val ≠ "\"*\"" then some (setAll [] (Fields val)) else cfg.WhiteList
        | none => cfg.WhiteList) := by
  unfold overlayYaml
  dsimp only
  split <;> split_ifs <;> simp

/-! ## The shape of a run of `Parse` -/

theorem checkPaths_ok (fs : FileSystem) (cfg r : Config) (h : checkPaths fs cfg = .ok r) :
    r = cfg := by
  unfold checkPaths at h
  split_ifs at h
  exact (Except.ok.inj h).symm

theorem Parse_ok (fs : FileSystem) (c : Context) (r : Config) (h : Parse fs c = .ok r) :
    ∃ cfg, fileLayer fs c = .ok cfg ∧ r = flagLayer c cfg := by
  unfold Parse at h
  split at h
  · exact absurd h (by simp)
  · next cfg hf => exact ⟨cfg, hf, checkPaths_ok fs _ r h⟩

theorem fileLayer_ok (fs : FileSystem) (c : Context) (cfg : Config)
    (h : fileLayer fs c = .ok cfg) :
    (c.String "conf" = "" ∧ cfg = defaults) ∨
    (c.String "conf" ≠ "" ∧
      ∃ y, fs.ReadFile (c.String "conf") = .ok y ∧ cfg = overlayYaml y defaults) := by
  unfold fileLayer at h
  dsimp only at h
  split_ifs at h with hc
  · right
    refine ⟨hc, ?_⟩
    unfold parseYamlCfg at h
    split at h
    · exact absurd h (by simp)
    · next y hy => exact ⟨y, hy, (Except.ok.inj h).symm⟩
  · left
    exact ⟨not_not.mp hc, (Except.ok.inj h).symm⟩

/-! ## Layering of the scalar options -/

theorem getFlagOpt_string (c : Context) (name opt : String) :
    getFlagOpt c name opt = if c.IsSet name = true then c.String name else opt := by
  unfold getFlagOpt
  cases c.IsSet name <;> simp [OptKind.ofFlag]

theorem getFlagOpt_bool (c : Context) (name : String) (opt : Bool) :
    getFlagOpt c name opt = if c.IsSet name = true then c.Bool name else opt := by
  unfold getFlagOpt
  cases c.IsSet name <;> simp [OptKind.ofFlag]

theorem getConfigOpt_string (y : YamlFile) (name opt : String) :
    getConfigOpt y name opt = (match y.Get name with | some val => val | none => opt) := by
  unfold getConfigOpt
  cases y.Get name <;> simp [OptKind.ofYaml]

theorem getConfigOpt_bool (y : YamlFile) (name : String) (opt : Bool) :
    getConfigOpt y name opt
      = (match y.Get name with | some val => (ParseBool val).1 | none => opt) := by
  unfold getConfigOpt
  cases y.Get name <;> simp [OptKind.ofYaml]

theorem layeredString_of_conf_empty (fs : FileSystem) (c : Context) (name dflt : String)
    (hc : c.String "conf" = "") :
    layeredString fs c name dflt = if c.IsSet name = true then c.String name else dflt := by
  simp [layeredString, fileValue, hc]

theorem layeredBool_of_conf_empty (fs : FileSystem) (c : Context) (name : String) (dflt : Bool)
    (hc : c.String "conf" = "") :
    layeredBool fs c name dflt = if c.IsSet name = true then c.Bool name else dflt := by
  simp [layeredBool, fileValue, hc]

theorem layeredString_of_read (fs : FileSystem) (c : Context) (name dflt : String)
    (y : YamlFile) (hc : c.String "conf" ≠ "") (hy : fs.ReadFile (c.String "conf") = .ok y) :
    layeredString fs c name dflt = getFlagOpt c name (getConfigOpt y name dflt) := by
  simp [layeredString, fileValue, hc, hy, getFlagOpt_string, getConfigOpt_string]

theorem layeredBool_of_read (fs : FileSystem) (c : Context) (name : String) (dflt : Bool)
    (y : YamlFile) (hc : c.String "conf" ≠ "") (hy : fs.ReadFile (c.String "conf") = .ok y) :
    layeredBool fs c name dflt = getFlagOpt c name (getConfigOpt y name dflt) := by
  simp [layeredBool, fileValue, hc, hy, getFlagOpt_bool, getConfigOpt_bool]

theorem Parse_scalar_fields (fs : FileSystem) (c : Context) (r : Config)
    (h : Parse fs c = .ok r) :
    r.AddrDev = layeredString fs c "addr-dev" ":5912" ∧
    r.AddrUser = layeredString fs c "addr-user" ":5913" ∧
    r.AddrHttpProxy = layeredString fs c "addr-http-proxy" "" ∧
    r.HttpProxyRedirURL = layeredString fs c "http-proxy-redir-url" "" ∧
    r.HttpProxyRedirDomain = layeredString fs c "http-proxy-redir-domain" "" ∧
    r.SslCert = layeredString fs c "ssl-cert" "" ∧
    r.SslKey = layeredString fs c "ssl-key" "" ∧
    r.SslCacert = layeredString fs c "ssl-cacert" "" ∧
    r.Token = layeredString fs c "token" "" ∧
    r.DevAuthUrl = layeredString fs c "dev-auth-url" "" ∧
    r.DB = layeredString fs c "db" "sqlite://rttys.db" ∧
    r.DisableSignUp = layeredBool fs c "disable-sign-up" false ∧
    r.LocalAuth = layeredBool fs c "local-auth" true ∧
    r.SeparateSslConfig = layeredBool fs c "separate-ssl-config" false := by
  obtain ⟨cfg, hf, rfl⟩ := Parse_ok fs c r h
  obtain ⟨a1, a2, a3, a4, a5, a6, -, a8, a9, a10, a11, a12, a13, a14, a15⟩ :=
    flagLayer_fields c cfg
  rw [a1, a2, a3, a4, a5, a6, a8, a9, a10, a11, a12, a13, a14, a15]
  rcases fileLayer_ok fs c cfg hf with ⟨hc, rfl⟩ | ⟨hc, y, hy, rfl⟩
  · simp only [layeredString_of_conf_empty fs c _ _ hc, layeredBool_of_conf_empty fs c _ _ hc,
      getFlagOpt_string, getFlagOpt_bool, defaults]
    simp
  · obtain ⟨b1, b2, b3, b4, b5, b6, -, b8, b9, b10, b11, b12, b13, b14, b15⟩ :=
      overlayYaml_fields y defaults
    rw [b1, b2, b3, b4, b5, b6, b8, b9, b10, b11, b12, b13, b14, b15]
    simp only [layeredString_of_read fs c _ _ y hc hy, layeredBool_of_read fs c _ _ y hc hy,
      defaults]
    simp

/-! ## The path checks -/

theorem missing_true_iff (fs : FileSystem) (p : String × String) :
    missing fs p = true ↔ p.2 ≠ "" ∧ fs.Lstat p.2 = false := by
  unfold missing
  by_cases h : p.2 = "" <;> cases fs.Lstat p.2 <;> simp [h]

theorem missing_false_iff (fs : FileSystem) (p : String × String) :
    missing fs p = false ↔ p.2 = "" ∨ fs.Lstat p.2 = true := by
  unfold missing
  by_cases h : p.2 = "" <;> cases fs.Lstat p.2 <;> simp [h]

theorem firstMissing_none_iff (fs : FileSystem) (cfg : Config) :
    firstMissing fs cfg = none ↔ ∀ p ∈ pathFields cfg, p.2 = "" ∨ fs.Lstat p.2 = true := by
  rw [firstMissing, List.find?_eq_none]
  constructor
  · intro h p hp
    exact (missing_false_iff fs p).mp (Bool.eq_false_iff.mpr (h p hp))
  · intro h p hp
    exact Bool.eq_false_iff.mp ((missing_false_iff fs p).mpr (h p hp))

theorem missing_eq (fs : FileSystem) (n p : String) :
    missing fs (n, p) = decide (p ≠ "" ∧ fs.Lstat p = false) := by
  simp [missing]

theorem checkPaths_eq (fs : FileSystem) (cfg : Config) :
    checkPaths fs cfg
      = (match firstMissing fs cfg with
        | some p => .error (notExist p)
        | none => .ok cfg) := by
  unfold checkPaths firstMissing pathFields
  simp only [List.find?, missing_eq]
  by_cases h1 : cfg.SslCacert ≠ "" ∧ fs.Lstat cfg.SslCacert = false
  · rw [if_pos h1, decide_eq_true h1]; rfl
  rw [if_neg h1, decide_eq_false h1]
  by_cases h2 : cfg.SslCert ≠ "" ∧ fs.Lstat cfg.SslCert = false
  · rw [if_pos h2, decide_eq_true h2]; rfl
  rw [if_neg h2, decide_eq_false h2]
  by_cases h3 : cfg.SslKey ≠ "" ∧ fs.Lstat cfg.SslKey = false
  · rw [if_pos h3, decide_eq_true h3]; rfl
  rw [if_neg h3, decide_eq_false h3]
  by_cases h4 : cfg.WebUISslCert ≠ "" ∧ fs.Lstat cfg.WebUISslCert = false
  · rw [if_pos h4, decide_eq_true h4]; rfl
  rw [if_neg h4, decide_eq_false h4]
  by_cases h5 : cfg.WebUISslKey ≠ "" ∧ fs.Lstat cfg.WebUISslKey = false
  · rw [if_pos h5, decide_eq_true h5]; rfl
  rw [if_neg h5, decide_eq_false h5]

theorem Parse_eq (fs : FileSystem) (c : Context) (cfg : Config)
    (hf : fileLayer fs c = .ok cfg) :
    Parse fs c
      = (match firstMissing fs (flagLayer c cfg) with
        | some p => .error (notExist p)
        | none => .ok (flagLayer c cfg)) := by
  unfold Parse
  rw [hf]
  exact checkPaths_eq fs (flagLayer c cfg)

/-! ## Unmentioned options -/

theorem layeredString_unmentioned (fs : FileSystem) (c : Context) (name dflt : String)
    (h : unmentioned fs c name) : layeredString fs c name dflt = dflt := by
  simp [layeredString, h.1, h.2]

theorem layeredBool_unmentioned (fs : FileSystem) (c : Context) (name : String) (dflt : Bool)
    (h : unmentioned fs c name) : layeredBool fs c name dflt = dflt := by
  simp [layeredBool, h.1, h.2]

theorem fileLayer_HttpProxyPort (fs : FileSystem) (c : Context) (cfg : Config)
    (hf : fileLayer fs c = .ok cfg) : cfg.HttpProxyPort = 0 := by
  rcases fileLayer_ok fs c cfg hf with ⟨-, rfl⟩ | ⟨-, y, -, rfl⟩
  · rfl
  · rw [(overlayYaml_fields y defaults).2.2.2.2.2.2.1]; rfl

theorem fileLayer_get (fs : FileSystem) (c : Context) (cfg : Config) (name : String)
    (hf : fileLayer fs c = .ok cfg) :
    (c.String "conf" = "" ∧ cfg = defaults ∧ fileValue fs c name = none) ∨
    (∃ y, cfg = overlayYaml y defaults ∧ fileValue fs c name = y.Get name) := by
  rcases fileLayer_ok fs c cfg hf with ⟨hc, rfl⟩ | ⟨hc, y, hy, rfl⟩
  · left; exact ⟨hc, rfl, by simp [fileValue, hc]⟩
  · right; exact ⟨y, rfl, by simp [fileValue, hc, hy]⟩

theorem fileLayer_WhiteList (fs : FileSystem) (c : Context) (cfg : Config)
    (hf : fileLayer fs c = .ok cfg) :
    cfg.WhiteList
      = (match fileValue fs c "white-list" with
        | some val =>
          if val ≠ "*" ∧ val ≠ "\"*\"" then some (setAll [] (Fields val)) else none
        | none => none) := by
  rcases fileLayer_get fs c cfg "white-list" hf with ⟨-, rfl, hv⟩ | ⟨y, rfl, hv⟩
  · rw [hv]; rfl
  · rw [hv, overlayYaml_WhiteList]; rfl

theorem fileLayer_webui_of_none (fs : FileSystem) (c : Context) (cfg : Config)
    (hf : fileLayer fs c = .ok cfg) :
    (fileValue fs c "webui-ssl-cert" = none → cfg.WebUISslCert = "") ∧
    (fileValue fs c "webui-ssl-key" = none → cfg.WebUISslKey = "") := by
  constructor
  · intro hn
    rcases fileLayer_get fs c cfg "webui-ssl-cert" hf with ⟨-, rfl, -⟩ | ⟨y, rfl, hv⟩
    · rfl
    · rw [hn] at hv
      rw [(overlayYaml_webui y defaults).1, getConfigOpt_string, ← hv]
      simp [defaults]
  · intro hn
    rcases fileLayer_get fs c cfg "webui-ssl-key" hf with ⟨-, rfl, -⟩ | ⟨y, rfl, hv⟩
    · rfl
    · rw [hn] at hv
      rw [(overlayYaml_webui y defaults).2, getConfigOpt_string, ← hv]
      simp [defaults]

theorem Parse_webui (fs : FileSystem) (c : Context) (cfg r : Config)
    (hf : fileLayer fs c = .ok cfg) (h : Parse fs c = .ok r) :
    r.WebUISslCert
      = (if r.SeparateSslConfig = true then getFlagOpt c "webui-ssl-cert" cfg.WebUISslCert
        else r.SslCert) ∧
    r.WebUISslKey
      = (if r.SeparateSslConfig = true then getFlagOpt c "webui-ssl-key" cfg.WebUISslKey
        else r.SslKey) := by
  obtain ⟨cfg', hf', rfl⟩ := Parse_ok fs c r h
  rw [hf] at hf'
  obtain rfl := Except.ok.inj hf'
  obtain ⟨-, -, -, -, -, -, -, a8, a9, -, -, -, -, -, a15⟩ := flagLayer_fields c cfg
  rw [a8, a9, a15]
  exact flagLayer_webui c cfg

theorem Parse_of_no_input (fs : FileSystem) (c : Context) (hc : c.String "conf" = "")
    (hs : ∀ name, c.IsSet name = false) : Parse fs c = .ok defaults := by
  have hf : fileLayer fs c = .ok defaults := by simp [fileLayer, hc]
  have hl : flagLayer c defaults = defaults := by
    unfold flagLayer
    simp [getFlagOpt, hs, defaults]
  rw [Parse_eq fs c defaults hf, hl]
  rfl

/-! ## Precedence and defaults -/

/-- C1: on every successful run of `Parse`, each scalar option other than the
two webui TLS options resolves on its own to the flag's value when the flag is
set, else to the file's value for its key when a file is given and has the
key (a boolean key's text read by `ParseBool`), else to the built-in default. -/
theorem Parse_precedence_per_field (fs : FileSystem) (c : Context) (r : Config)
    (h : Parse fs c = .ok r) :
    r.AddrDev = layeredString fs c "addr-dev" ":5912" ∧
    r.AddrUser = layeredString fs c "addr-user" ":5913" ∧
    r.AddrHttpProxy = layeredString fs c "addr-http-proxy" "" ∧
    r.HttpProxyRedirURL = layeredString fs c "http-proxy-redir-url" "" ∧
    r.HttpProxyRedirDomain = layeredString fs c "http-proxy-redir-domain" "" ∧
    r.SslCert = layeredString fs c "ssl-cert" "" ∧
    r.SslKey = layeredString fs c "ssl-key" "" ∧
    r.SslCacert = layeredString fs c "ssl-cacert" "" ∧
    r.Token = layeredString fs c "token" "" ∧
    r.DevAuthUrl = layeredString fs c "dev-auth-url" "" ∧
    r.DB = layeredString fs c "db" "sqlite://rttys.db" ∧
    r.DisableSignUp = layeredBool fs c "disable-sign-up" false ∧
    r.LocalAuth = layeredBool fs c "local-auth" true ∧
    r.SeparateSslConfig = layeredBool fs c "separate-ssl-config" false :=
  Parse_scalar_fields fs c r h

/-- Witness for C1: the file gives `addr-dev` and `addr-user`, the flag gives
`addr-user`; the device address comes from the file, the user address from the
flag and the database string from the defaults. -/
theorem Parse_precedence_per_field_witness :
    Parse addrFs addrCtx = .ok { defaults with AddrDev := ":6000", AddrUser := ":7001" } ∧
    layeredString addrFs addrCtx "addr-dev" ":5912" = ":6000" ∧
    layeredString addrFs addrCtx "addr-user" ":5913" = ":7001" ∧
    layeredString addrFs addrCtx "db" "sqlite://rttys.db" = "sqlite://rttys.db" :=
  have h := Parse_precedence_per_field addrFs addrCtx
    { defaults with AddrDev := ":6000", AddrUser := ":7001" } rfl
  ⟨rfl, h.1.symm, h.2.1.symm, h.2.2.2.2.2.2.2.2.2.2.1.symm⟩

/-- Counterexample to C2 as stated: the file mentions only `ssl-cert`, no flag
is set, yet the webui certificate, mentioned by neither layer, resolves to the
device certificate and not to its default, the empty string. -/
theorem Parse_unmentioned_webui_not_default :
    unmentioned certFs confOnlyCtx "webui-ssl-cert" ∧
    defaults.WebUISslCert = "" ∧
    Parse certFs confOnlyCtx
      = .ok { defaults with SslCert := "/etc/rttys/cert.pem",
                            WebUISslCert := "/etc/rttys/cert.pem" } :=
  ⟨⟨rfl, rfl⟩, rfl, rfl⟩

/-- C2, amended: with no file and no flag set `Parse` returns the defaults on
every filesystem; and on every successful run each field other than the two
webui fields that is mentioned by neither layer has its default, while a webui
field mentioned by neither layer has its default when separate TLS mode
resolves to true or the matching device option is mentioned by neither layer
as well. -/
theorem Parse_unmentioned_default (fs : FileSystem) (c : Context) :
    (c.String "conf" = "" → (∀ name, c.IsSet name = false) → Parse fs c = .ok defaults) ∧
    ∀ r, Parse fs c = .ok r →
      (unmentioned fs c "addr-dev" → r.AddrDev = ":5912") ∧
      (unmentioned fs c "addr-user" → r.AddrUser = ":5913") ∧
      (unmentioned fs c "addr-http-proxy" → r.AddrHttpProxy = "") ∧
      (unmentioned fs c "disable-sign-up" → r.DisableSignUp = false) ∧
      (unmentioned fs c "http-proxy-redir-url" → r.HttpProxyRedirURL = "") ∧
      (unmentioned fs c "http-proxy-redir-domain" → r.HttpProxyRedirDomain = "") ∧
      r.HttpProxyPort = 0 ∧
      (unmentioned fs c "ssl-cert" → r.SslCert = "") ∧
      (unmentioned fs c "ssl-key" → r.SslKey = "") ∧
      (unmentioned fs c "ssl-cacert" → r.SslCacert = "") ∧
      (unmentioned fs c "token" → r.Token = "") ∧
      (unmentioned fs c "dev-auth-url" → r.DevAuthUrl = "") ∧
      (unmentioned fs c "white-list" → r.WhiteList = none) ∧
      (unmentioned fs c "db" → r.DB = "sqlite://rttys.db") ∧
      (unmentioned fs c "local-auth" → r.LocalAuth = true) ∧
      (unmentioned fs c "separate-ssl-config" → r.SeparateSslConfig = false) ∧
      (unmentioned fs c "webui-ssl-cert" →
        r.SeparateSslConfig = true ∨ unmentioned fs c "ssl-cert" → r.WebUISslCert = "") ∧
      (unmentioned fs c "webui-ssl-key" →
        r.SeparateSslConfig = true ∨ unmentioned fs c "ssl-key" → r.WebUISslKey = "") := by
  refine ⟨Parse_of_no_input fs c, ?_⟩
  intro r h
  obtain ⟨s1, s2, s3, s4, s5, s6, s7, s8, s9, s10, s11, s12, s13, s14⟩ :=
    Parse_scalar_fields fs c r h
  obtain ⟨cfg, hf, hr⟩ := Parse_ok fs c r h
  obtain ⟨w1, w2⟩ := Parse_webui fs c cfg r hf h
  refine ⟨fun u => ?_, fun u => ?_, fun u => ?_, fun u => ?_, fun u => ?_, fun u => ?_, ?_,
    fun u => ?_, fun u => ?_, fun u => ?_, fun u => ?_, fun u => ?_, fun u => ?_, fun u => ?_,
    fun u => ?_, fun u => ?_, fun u hs => ?_, fun u hs => ?_⟩
  · rw [s1, layeredString_unmentioned fs c _ _ u]
  · rw [s2, layeredString_unmentioned fs c _ _ u]
  · rw [s3, layeredString_unmentioned fs c _ _ u]
  · rw [s12, layeredBool_unmentioned fs c _ _ u]
  · rw [s4, layeredString_unmentioned fs c _ _ u]
  · rw [s5, layeredString_unmentioned fs c _ _ u]
  · rw [hr, (flagLayer_fields c cfg).2.2.2.2.2.2.1]
    exact fileLayer_HttpProxyPort fs c cfg hf
  · rw [s6, layeredString_unmentioned fs c _ _ u]
  · rw [s7, layeredString_unmentioned fs c _ _ u]
  · rw [s8, layeredString_unmentioned fs c _ _ u]
  · rw [s9, layeredString_unmentioned fs c _ _ u]
  · rw [s10, layeredString_unmentioned fs c _ _ u]
  · rw [hr, flagLayer_WhiteList, fileLayer_WhiteList fs c cfg hf, u.1, u.2]
    rfl
  · rw [s11, layeredString_unmentioned fs c _ _ u]
  · rw [s13, layeredBool_unmentioned fs c _ _ u]
  · rw [s14, layeredBool_unmentioned fs c _ _ u]
  · rw [w1]
    have hw := (fileLayer_webui_of_none fs c cfg hf).1 u.2
    rcases hs with hs | hs
    · rw [if_pos hs, getFlagOpt_string, u.1, hw]; rfl
    · by_cases hsep : r.SeparateSslConfig = true
      · rw [if_pos hsep, getFlagOpt_string, u.1, hw]; rfl
      · rw [if_neg hsep, s6, layeredString_unmentioned fs c _ _ hs]
  · rw [w2]
    have hw := (fileLayer_webui_of_none fs c cfg hf).2 u.2
    rcases hs with hs | hs
    · rw [if_pos hs, getFlagOpt_string, u.1, hw]; rfl
    · by_cases hsep : r.SeparateSslConfig = true
      · rw [if_pos hsep, getFlagOpt_string, u.1, hw]; rfl
      · rw [if_neg hsep, s7, layeredString_unmentioned fs c _ _ hs]

/-- Witness for C2, amended: without file and flags `Parse` returns the
defaults, and in that run the unmentioned device address is the default. -/
theorem Parse_unmentioned_default_witness :
    Parse emptyFs noFlagsCtx = .ok defaults ∧ defaults.AddrDev = ":5912" :=
  have h := Parse_unmentioned_default emptyFs noFlagsCtx
  ⟨h.1 rfl (fun _ => rfl), (h.2 defaults rfl).1 ⟨rfl, rfl⟩⟩

/-! ## Shared TLS identity -/

/-- C3: whenever `Parse` succeeds with `SeparateSslConfig` resolved to false,
the webui certificate and key of the result equal the device certificate and
key, whatever the file and the flags give for the webui options. -/
theorem Parse_shared_tls_mirrors (fs : FileSystem) (c : Context) (r : Config)
    (h : Parse fs c = .ok r) (hsep : r.SeparateSslConfig = false) :
    r.WebUISslCert = r.SslCert ∧ r.WebUISslKey = r.SslKey := by
  obtain ⟨cfg, hf, -⟩ := Parse_ok fs c r h
  obtain ⟨w1, w2⟩ := Parse_webui fs c cfg r hf h
  rw [w1, w2, hsep]
  exact ⟨rfl, rfl⟩

/-- Witness for C3: the file asks for separate TLS mode with its own webui
certificate and key, the flag switches the mode off; the webui fields mirror
the device fields. -/
theorem Parse_shared_tls_mirrors_witness :
    Parse separateFs sharedCtx = .ok sharedCfg ∧ sharedCfg.SeparateSslConfig = false ∧
    sharedCfg.WebUISslCert = sharedCfg.SslCert ∧ sharedCfg.WebUISslKey = sharedCfg.SslKey :=
  ⟨rfl, rfl, Parse_shared_tls_mirrors separateFs sharedCtx sharedCfg rfl rfl⟩

/-! ## Validation of the paths -/

/-- C4: if after layering some path field is non-empty and does not exist,
`Parse` returns no configuration but the error naming the first such field in
the order SslCacert, SslCert, SslKey, WebUISslCert, WebUISslKey together with
its path; later missing paths play no part. -/
theorem Parse_fails_on_first_missing (fs : FileSystem) (c : Context) (cfg : Config)
    (hf : fileLayer fs c = .ok cfg)
    (hm : ∃ p ∈ pathFields (flagLayer c cfg), p.2 ≠ "" ∧ fs.Lstat p.2 = false) :
    ∃ pre p post, pathFields (flagLayer c cfg) = pre ++ p :: post ∧
      (∀ q ∈ pre, q.2 = "" ∨ fs.Lstat q.2 = true) ∧
      (p.2 ≠ "" ∧ fs.Lstat p.2 = false) ∧
      Parse fs c = .error (p.1 ++ " \"" ++ p.2 ++ "\" not exist") := by
  obtain ⟨q, hq, hq1, hq2⟩ := hm
  have hq' : missing fs q = true := (missing_true_iff fs q).mpr ⟨hq1, hq2⟩
  cases hfm : firstMissing fs (flagLayer c cfg) with
  | none =>
    rw [firstMissing, List.find?_eq_none] at hfm
    exact absurd hq' (hfm q hq)
  | some p =>
    rw [firstMissing, List.find?_eq_some] at hfm
    obtain ⟨hp, pre, post, hsplit, hpre⟩ := hfm
    refine ⟨pre, p, post, hsplit, ?_, ?_, ?_⟩
    · intro x hx
      have hx' : missing fs x = false := by simpa using hpre x hx
      exact (missing_false_iff fs x).mp hx'
    · exact (missing_true_iff fs p).mp hp
    · rw [Parse_eq fs c cfg hf, firstMissing, List.find?_eq_some.mpr
        ⟨hp, pre, post, hsplit, hpre⟩]
      rfl

/-- Witness for C4: neither the device certificate nor the device key exists;
the error names the certificate, which is checked first. -/
theorem Parse_fails_on_first_missing_witness :
    Parse missingFs confOnlyCtx = .error "SslCert \"/dev.crt\" not exist" ∧
    ∃ pre p post,
      pathFields (flagLayer confOnlyCtx { defaults with SslCert := "/dev.crt", SslKey := "/dev.key" })
        = pre ++ p :: post ∧
      (∀ q ∈ pre, q.2 = "" ∨ missingFs.Lstat q.2 = true) ∧
      (p.2 ≠ "" ∧ missingFs.Lstat p.2 = false) ∧
      Parse missingFs confOnlyCtx = .error (p.1 ++ " \"" ++ p.2 ++ "\" not exist") :=
  ⟨rfl, Parse_fails_on_first_missing missingFs confOnlyCtx
    { defaults with SslCert := "/dev.crt", SslKey := "/dev.key" } rfl
    ⟨("SslKey", "/dev.key"), by decide, by decide, rfl⟩⟩

/-- C5: when the file layer does not fail, `Parse` succeeds exactly when each
of the five resolved path fields is empty or names an existing entry; it then
returns the layered configuration, so every non-empty path of a returned
configuration exists, and with all five empty it succeeds on every
filesystem. -/
theorem Parse_succeeds_iff_paths_exist (fs : FileSystem) (c : Context) (cfg : Config)
    (hf : fileLayer fs c = .ok cfg) :
    ((∃ r, Parse fs c = .ok r) ↔
      ∀ p ∈ pathFields (flagLayer c cfg), p.2 = "" ∨ fs.Lstat p.2 = true) ∧
    ((∀ p ∈ pathFields (flagLayer c cfg), p.2 = "") → Parse fs c = .ok (flagLayer c cfg)) ∧
    (∀ r, Parse fs c = .ok r →
      r = flagLayer c cfg ∧ ∀ p ∈ pathFields r, p.2 ≠ "" → fs.Lstat p.2 = true) := by
  have key : (∀ p ∈ pathFields (flagLayer c cfg), p.2 = "" ∨ fs.Lstat p.2 = true) ↔
      firstMissing fs (flagLayer c cfg) = none :=
    (firstMissing_none_iff fs (flagLayer c cfg)).symm
  have hP := Parse_eq fs c cfg hf
  refine ⟨?_, ?_, ?_⟩
  · rw [key]
    constructor
    · rintro ⟨r, hr⟩
      rw [hP] at hr
      cases hfm : firstMissing fs (flagLayer c cfg) with
      | none => rfl
      | some p => rw [hfm] at hr; exact absurd hr (by simp)
    · intro hn
      exact ⟨flagLayer c cfg, by rw [hP, hn]⟩
  · intro hall
    have hn := key.mp (fun p hp => Or.inl (hall p hp))
    rw [hP, hn]
  · intro r hr
    obtain ⟨cfg', hf', rfl⟩ := Parse_ok fs c _ hr
    rw [hf] at hf'
    obtain rfl := Except.ok.inj hf'
    refine ⟨rfl, ?_⟩
    intro p hp hne
    have hall := key.mpr (by
      rw [hP] at hr
      cases hfm : firstMissing fs (flagLayer c cfg) with
      | none => rfl
      | some p => rw [hfm] at hr; exact absurd hr (by simp))
    rcases hall p hp with h | h
    · exact absurd h hne
    · exact h

/-- Witness for C5: the only non-empty paths are the device certificate and
its webui mirror, which exist, and `Parse` succeeds. -/
theorem Parse_succeeds_iff_paths_exist_witness :
    ∃ r, Parse certFs confOnlyCtx = .ok r :=
  (Parse_succeeds_iff_paths_exist certFs confOnlyCtx
    { defaults with SslCert := "/etc/rttys/cert.pem" } rfl).1.mpr (by decide)

/-! ## Failure of the file layer -/

/-- C6: when a file is given and cannot be read or parsed, `Parse` returns the
error `read config file: ` followed by the text of the read error, and the
same for every other flag set and filesystem with that file and that read
error. -/
theorem Parse_read_error (fs : FileSystem) (c : Context) (e : String)
    (hc : c.String "conf" ≠ "") (hr : fs.ReadFile (c.String "conf") = .error e) :
    Parse fs c = .error ("read config file: " ++ e) ∧
    ∀ (fs2 : FileSystem) (c2 : Context), c2.String "conf" = c.String "conf" →
      fs2.ReadFile (c.String "conf") = .error e → Parse fs2 c2 = Parse fs c := by
  have main : ∀ (fs1 : FileSystem) (c1 : Context), c1.String "conf" = c.String "conf" →
      fs1.ReadFile (c.String "conf") = .error e →
      Parse fs1 c1 = .error ("read config file: " ++ e) := by
    intro fs1 c1 h1 h2
    simp [Parse, fileLayer, parseYamlCfg, h1, hc, h2]
  refine ⟨main fs c rfl hr, ?_⟩
  intro fs2 c2 h1 h2
  rw [main fs2 c2 h1 h2, main fs c rfl hr]

/-- Witness for C6: the file cannot be opened; the flags that are set and the
paths that exist leave the error unchanged. -/
theorem Parse_read_error_witness :
    Parse unreadableFs addrCtx
      = .error "read config file: open rttys.conf: no such file or directory" :=
  (Parse_read_error unreadableFs addrCtx "open rttys.conf: no such file or directory"
    (by decide) rfl).1

/-! ## Maps and fields -/

theorem GoMap.get_set (m : GoMap) (k : String) (v : Bool) (id : String) :
    GoMap.get (GoMap.set m k v) id = if k = id then v else GoMap.get m id := by
  induction m with
  | nil => simp [GoMap.set, GoMap.get]
  | cons e m ih =>
    obtain ⟨k', v'⟩ := e
    by_cases h : k' = k
    · subst h
      by_cases h2 : k' = id <;> simp [GoMap.set, GoMap.get, h2]
    · by_cases h2 : k' = id
      · subst h2
        have h3 : ¬ k = k' := fun hk => h hk.symm
        simp [GoMap.set, GoMap.get, h, h3]
      · simp [GoMap.set, GoMap.get, h, h2, ih]

theorem GoMap.keys_set (m : GoMap) (k : String) (v : Bool) :
    (GoMap.set m k v).map Prod.fst
      = if k ∈ m.map Prod.fst then m.map Prod.fst else m.map Prod.fst ++ [k] := by
  induction m with
  | nil => simp [GoMap.set]
  | cons e m ih =>
    obtain ⟨k', v'⟩ := e
    by_cases h : k' = k
    · subst h
      simp [GoMap.set]
    · have h' : ¬ k = k' := fun hk => h hk.symm
      simp only [GoMap.set, h, if_false, List.map_cons, ih, List.mem_cons, h', false_or]
      split_ifs <;> simp

theorem setAll_get (ids : List String) (m : GoMap) (id : String) :
    GoMap.get (setAll m ids) id = true ↔ GoMap.get m id = true ∨ id ∈ ids := by
  induction ids generalizing m with
  | nil => simp [setAll]
  | cons a ids ih =>
    have step : setAll m (a :: ids) = setAll (GoMap.set m a true) ids := rfl
    rw [step, ih, GoMap.get_set]
    by_cases h : a = id
    · simp [h]
    · have h' : ¬ id = a := fun hk => h hk.symm
      simp [h, h']

theorem setAll_keys (ids : List String) (m : GoMap) (hm : (m.map Prod.fst).Nodup) :
    ((setAll m ids).map Prod.fst).Nodup ∧
    ∀ id, id ∈ (setAll m ids).map Prod.fst ↔ id ∈ m.map Prod.fst ∨ id ∈ ids := by
  induction ids generalizing m with
  | nil => simp [setAll, hm]
  | cons a ids ih =>
    have step : setAll m (a :: ids) = setAll (GoMap.set m a true) ids := rfl
    have hn : ((GoMap.set m a true).map Prod.fst).Nodup := by
      rw [GoMap.keys_set]
      split_ifs with h
      · exact hm
      · exact List.Nodup.append hm (List.nodup_singleton a) (by simpa using h)
    obtain ⟨h1, h2⟩ := ih (GoMap.set m a true) hn
    rw [step]
    refine ⟨h1, fun id => ?_⟩
    rw [h2, GoMap.keys_set]
    split_ifs with h
    · constructor
      · rintro (h3 | h3)
        · exact Or.inl h3
        · exact Or.inr (List.mem_cons_of_mem _ h3)
      · rintro (h3 | h3)
        · exact Or.inl h3
        · rcases List.mem_cons.mp h3 with h4 | h4
          · exact Or.inl (h4 ▸ h)
          · exact Or.inr h4
    · simp only [List.mem_append, List.mem_singleton, List.mem_cons]
      tauto

theorem setAll_eq_nil (ids : List String) : setAll [] ids = [] ↔ ids = [] := by
  constructor
  · intro h
    have h2 := (setAll_keys ids [] (by simp)).2
    rw [h] at h2
    apply List.eq_nil_iff_forall_not_mem.mpr
    intro id hid
    have := (h2 id).mpr (Or.inr hid)
    simp at this
  · rintro rfl
    rfl

theorem fieldsAux_eq_tokens (l cur : List Char) :
    fieldsAux cur l
      = (((l.splitOnP isSpace).modifyHead (fun w => cur ++ w)).filter
          (fun w => !w.isEmpty)).map String.mk := by
  induction l generalizing cur with
  | nil =>
    cases cur <;> simp [fieldsAux, List.splitOnP_nil]
  | cons r rs ih =>
    rw [List.splitOnP_cons]
    by_cases hr : isSpace r = true
    · have h0 := ih []
      simp only [List.nil_append] at h0
      have hid : (fun w : List Char => w) = id := rfl
      rw [hid, List.modifyHead_id] at h0
      cases cur with
      | nil => simp [fieldsAux, hr, h0]
      | cons a cur => simp [fieldsAux, hr, h0]
    · have h1 := ih (cur ++ [r])
      simp only [fieldsAux, hr, if_false, h1, Bool.false_eq_true]
      rw [List.modifyHead_modifyHead]
      congr 3
      funext w
      simp

theorem Fields_eq_tokens (s : String) : Fields s = tokens s := by
  unfold Fields tokens
  rw [fieldsAux_eq_tokens]
  have hid : (fun w : List Char => [] ++ w) = id := by funext w; simp
  rw [hid, List.modifyHead_id]
  rfl

theorem fieldsAux_eq_nil (l cur : List Char) :
    fieldsAux cur l = [] ↔ cur = [] ∧ ∀ ch ∈ l, isSpace ch = true := by
  induction l generalizing cur with
  | nil => simp [fieldsAux]
  | cons r rs ih =>
    by_cases hr : isSpace r = true
    · by_cases hc : cur = []
      · simp [fieldsAux, hr, hc, ih]
      · simp [fieldsAux, hr, hc]
    · simp [fieldsAux, hr, ih]

theorem Fields_eq_nil (s : String) : Fields s = [] ↔ ∀ ch ∈ s.data, isSpace ch = true := by
  unfold Fields
  rw [fieldsAux_eq_nil]
  simp

/-! ## The whitelist -/

theorem Parse_WhiteList (fs : FileSystem) (c : Context) (r : Config)
    (h : Parse fs c = .ok r) :
    r.WhiteList
      = (if c.IsSet "white-list" = true then
          (if c.String "white-list" = "*" then none
           else some (setAll [] (Fields (c.String "white-list"))))
        else
          (match fileValue fs c "white-list" with
          | some val =>
            if val ≠ "*" ∧ val ≠ "\"*\"" then some (setAll [] (Fields val)) else none
          | none => none)) := by
  obtain ⟨cfg, hf, rfl⟩ := Parse_ok fs c r h
  rw [flagLayer_WhiteList, fileLayer_WhiteList fs c cfg hf]

theorem setAll_Fields (v : String) :
    ((setAll [] (Fields v)).map Prod.fst).Nodup ∧
    (∀ id, id ∈ (setAll [] (Fields v)).map Prod.fst ↔ id ∈ tokens v) ∧
    (∀ id, GoMap.get (setAll [] (Fields v)) id = true ↔ id ∈ tokens v) ∧
    (setAll [] (Fields v) = [] ↔ ∀ ch ∈ v.data, isSpace ch = true) := by
  obtain ⟨h1, h2⟩ := setAll_keys (Fields v) [] (by simp)
  refine ⟨h1, fun id => ?_, fun id => ?_, ?_⟩
  · rw [h2, Fields_eq_tokens]; simp
  · rw [setAll_get, Fields_eq_tokens]; simp [GoMap.get]
  · rw [setAll_eq_nil, Fields_eq_nil]

/-- Counterexample to C7 as stated: with the white-list flag set to the empty
text `Parse` succeeds and returns a whitelist that is present and empty. -/
theorem Parse_WhiteList_present_but_empty :
    emptyListCtx.IsSet "white-list" = true ∧ emptyListCtx.String "white-list" = "" ∧
    Parse emptyFs emptyListCtx = .ok { defaults with WhiteList := some [] } :=
  ⟨rfl, rfl, rfl⟩

theorem blank_ne_wildcard (v : String) (hb : ∀ ch ∈ v.data, isSpace ch = true) :
    v ≠ "*" ∧ v ≠ "\"*\"" := by
  constructor
  · rintro rfl
    exact absurd (hb (Char.ofNat 42) (by decide)) (by decide)
  · rintro rfl
    exact absurd (hb (Char.ofNat 42) (by decide)) (by decide)

theorem Parse_WhiteList_cases (fs : FileSystem) (c : Context) (r : Config)
    (h : Parse fs c = .ok r) :
    (whiteListValue fs c = none ∧ r.WhiteList = none) ∨
    ∃ v, whiteListValue fs c = some v ∧
      ((v = "*" ∨ (c.IsSet "white-list" = false ∧ v = "\"*\"")) ∧ r.WhiteList = none ∨
       (v ≠ "*" ∧ (c.IsSet "white-list" = false → v ≠ "\"*\"")) ∧
        r.WhiteList = some (setAll [] (Fields v))) := by
  have hw := Parse_WhiteList fs c r h
  by_cases hs : c.IsSet "white-list" = true
  · rw [if_pos hs] at hw
    right
    refine ⟨c.String "white-list", by simp [whiteListValue, hs], ?_⟩
    by_cases hstar : c.String "white-list" = "*"
    · left; rw [if_pos hstar] at hw; exact ⟨Or.inl hstar, hw⟩
    · right; rw [if_neg hstar] at hw
      exact ⟨⟨hstar, fun hf => absurd hs (by rw [hf]; simp)⟩, hw⟩
  · rw [if_neg hs] at hw
    have hs' : c.IsSet "white-list" = false := by simpa using hs
    cases hv : fileValue fs c "white-list" with
    | none =>
      left
      rw [hv] at hw
      exact ⟨by simp [whiteListValue, hs, hv], hw⟩
    | some v =>
      right
      rw [hv] at hw
      dsimp only at hw
      refine ⟨v, by simp [whiteListValue, hs, hv], ?_⟩
      by_cases hstar : v ≠ "*" ∧ v ≠ "\"*\""
      · right; rw [if_pos hstar] at hw
        exact ⟨⟨hstar.1, fun _ => hstar.2⟩, hw⟩
      · left; rw [if_neg hstar] at hw
        refine ⟨?_, hw⟩
        by_cases h1 : v = "*"
        · exact Or.inl h1
        · exact Or.inr ⟨hs', by_contra (fun h2 => hstar ⟨h1, h2⟩)⟩

/-- C7, amended: on every successful run the returned whitelist is either
unset or the set of the whitespace-separated tokens of the white-list text of
the deciding layer (the flag when set, else the file); it is unset exactly
when no layer gives a text or the text is that layer's wildcard; the set is
empty exactly when the text is empty or consists of white space only, and on
such a text the whitelist is present and empty. -/
theorem Parse_WhiteList_unset_or_tokens (fs : FileSystem) (c : Context) (r : Config)
    (h : Parse fs c = .ok r) :
    (r.WhiteList = none ∨
      ∃ v m, whiteListValue fs c = some v ∧ r.WhiteList = some m ∧
        (m.map Prod.fst).Nodup ∧
        (∀ id, id ∈ m.map Prod.fst ↔ id ∈ tokens v) ∧
        (∀ id, GoMap.get m id = true ↔ id ∈ tokens v) ∧
        (m = [] ↔ ∀ ch ∈ v.data, isSpace ch = true)) ∧
    (r.WhiteList = none ↔
      whiteListValue fs c = none ∨ whiteListValue fs c = some "*" ∨
      (c.IsSet "white-list" = false ∧ whiteListValue fs c = some "\"*\"")) ∧
    (∀ v, whiteListValue fs c = some v → (∀ ch ∈ v.data, isSpace ch = true) →
      r.WhiteList = some []) ∧
    (∀ v, whiteListValue fs c = some v → (∃ ch ∈ v.data, isSpace ch = false) →
      r.WhiteList = none ∨ ∃ m, r.WhiteList = some m ∧ m ≠ []) := by
  rcases Parse_WhiteList_cases fs c r h with ⟨hn, hr⟩ | ⟨v, hv, ⟨hwild, hr⟩ | ⟨hnw, hr⟩⟩
  · refine ⟨Or.inl hr, ⟨fun _ => Or.inl hn, fun _ => hr⟩, ?_, ?_⟩
    · intro v hv; rw [hn] at hv; cases hv
    · intro v hv; rw [hn] at hv; cases hv
  · refine ⟨Or.inl hr, ⟨fun _ => ?_, fun _ => hr⟩, ?_, ?_⟩
    · rcases hwild with rfl | ⟨hs, rfl⟩
      · exact Or.inr (Or.inl hv)
      · exact Or.inr (Or.inr ⟨hs, hv⟩)
    · intro v2 hv2 hb
      rw [hv] at hv2
      obtain rfl := Option.some.inj hv2
      obtain ⟨b1, b2⟩ := blank_ne_wildcard v hb
      rcases hwild with h1 | ⟨-, h2⟩
      · exact absurd h1 b1
      · exact absurd h2 b2
    · intro _ _ _
      exact Or.inl hr
  · refine ⟨Or.inr ⟨v, _, hv, hr, setAll_Fields v⟩, ⟨fun hnone => ?_, fun hcase => ?_⟩, ?_, ?_⟩
    · rw [hr] at hnone; cases hnone
    · rcases hcase with h0 | h1 | ⟨hs, h2⟩
      · rw [hv] at h0; cases h0
      · rw [hv] at h1; exact absurd (Option.some.inj h1) hnw.1
      · rw [hv] at h2; exact absurd (Option.some.inj h2) (hnw.2 hs)
    · intro v2 hv2 hb
      rw [hv] at hv2
      obtain rfl := Option.some.inj hv2
      rw [hr, (setAll_Fields v).2.2.2.mpr hb]
    · intro v2 hv2 hb
      rw [hv] at hv2
      obtain rfl := Option.some.inj hv2
      obtain ⟨ch, hch, hsp⟩ := hb
      refine Or.inr ⟨_, hr, fun hnil => ?_⟩
      have := (setAll_Fields v).2.2.2.mp hnil ch hch
      rw [hsp] at this
      cases this

/-- Witness for C7, amended: the white-list flag set to two spaces gives a
whitelist that is present and empty. -/
theorem Parse_WhiteList_unset_or_tokens_witness :
    Parse emptyFs blankListCtx = .ok emptyListCfg ∧
    whiteListValue emptyFs blankListCtx = some "  " ∧
    emptyListCfg.WhiteList = some [] :=
  ⟨rfl, rfl, (Parse_WhiteList_unset_or_tokens emptyFs blankListCtx emptyListCfg rfl).2.2.1
    "  " rfl (by decide)⟩

/-- Counterexample to C8 as stated: the file restricts the whitelist and the
white-list flag is set to the quoted wildcard; the resolved whitelist is not
unset but holds the quoted wildcard as its only identifier. -/
theorem Parse_flag_quoted_wildcard_restricts :
    quotedStarCtx.IsSet "white-list" = true ∧
    quotedStarCtx.String "white-list" = "\"*\"" ∧
    Parse listFs quotedStarCtx = .ok { defaults with WhiteList := some [("\"*\"", true)] } :=
  ⟨rfl, rfl, rfl⟩

/-- C8, amended: on a successful run the whitelist is unset when the
white-list flag is set to `*`, whatever the file restricts, and when the flag
is not set and the file's white-list text is `*` or the quoted wildcard; a
flag set to the quoted wildcard gives the whitelist whose only identifier is
the quoted wildcard. -/
theorem Parse_wildcard (fs : FileSystem) (c : Context) (r : Config)
    (h : Parse fs c = .ok r) :
    (c.IsSet "white-list" = true → c.String "white-list" = "*" → r.WhiteList = none) ∧
    (c.IsSet "white-list" = false → ∀ v, fileValue fs c "white-list" = some v →
      v = "*" ∨ v = "\"*\"" → r.WhiteList = none) ∧
    (c.IsSet "white-list" = true → c.String "white-list" = "\"*\"" →
      r.WhiteList = some [("\"*\"", true)]) := by
  have hw := Parse_WhiteList fs c r h
  refine ⟨fun hs hv => ?_, fun hs v hv hstar => ?_, fun hs hv => ?_⟩
  · rw [hw, if_pos hs, if_pos hv]
  · rw [hw, hs, hv]
    rcases hstar with rfl | rfl <;> simp
  · rw [hw, if_pos hs, hv]
    rfl

/-- Witness for C8, amended: the file restricts the whitelist to `alice` and
`bob`, the flag is set to `*`, and the whitelist is unset. -/
theorem Parse_wildcard_witness :
    Parse listFs starCtx = .ok defaults ∧ defaults.WhiteList = none :=
  ⟨rfl, (Parse_wildcard listFs starCtx defaults rfl).1 rfl rfl⟩

/-- C9: on a successful run with the white-list flag not set, a file
white-list text that is neither `*` nor the quoted wildcard resolves to the
map whose keys are exactly the whitespace-separated tokens of the text, each
once and each mapped to true; without a white-list key in the file the
whitelist stays unset. -/
theorem Parse_file_WhiteList (fs : FileSystem) (c : Context) (r : Config)
    (h : Parse fs c = .ok r) (hs : c.IsSet "white-list" = false) :
    (∀ v, fileValue fs c "white-list" = some v → v ≠ "*" → v ≠ "\"*\"" →
      ∃ m, r.WhiteList = some m ∧ (m.map Prod.fst).Nodup ∧
        (∀ id, id ∈ m.map Prod.fst ↔ id ∈ tokens v) ∧
        (∀ id, GoMap.get m id = true ↔ id ∈ tokens v)) ∧
    (fileValue fs c "white-list" = none → r.WhiteList = none) := by
  have hw := Parse_WhiteList fs c r h
  rw [hs] at hw
  refine ⟨fun v hv h1 h2 => ?_, fun hv => ?_⟩
  · rw [hv] at hw
    dsimp only at hw
    rw [if_neg (by simp), if_pos ⟨h1, h2⟩] at hw
    obtain ⟨g1, g2, g3, -⟩ := setAll_Fields v
    exact ⟨_, hw, g1, g2, g3⟩
  · rw [hw, hv]
    rfl

/-- Witness for C9: the file's `alice bob` resolves to the two-element set of
`alice` and `bob`. -/
theorem Parse_file_WhiteList_witness :
    Parse listFs confOnlyCtx
      = .ok { defaults with WhiteList := some [("alice", true), ("bob", true)] } ∧
    tokens "alice bob" = ["alice", "bob"] ∧
    ∃ m, some [("alice", true), ("bob", true)] = some m ∧ (m.map Prod.fst).Nodup ∧
      (∀ id, id ∈ m.map Prod.fst ↔ id ∈ tokens "alice bob") ∧
      (∀ id, GoMap.get m id = true ↔ id ∈ tokens "alice bob") :=
  ⟨rfl, by decide,
    (Parse_file_WhiteList listFs confOnlyCtx
      { defaults with WhiteList := some [("alice", true), ("bob", true)] } rfl rfl).1
      "alice bob" rfl (by decide) (by decide)⟩

/-- C10: on a successful run with the white-list flag set to a text other than
`*`, the whitelist is the map built from that text alone, whose keys are
exactly its whitespace-separated tokens, so any other run with the same flag
text resolves to the same whitelist whatever its file says; with the flag not
set the whitelist is the one the file layer produced. -/
theorem Parse_flag_WhiteList_replaces (fs : FileSystem) (c : Context) (r : Config)
    (h : Parse fs c = .ok r) :
    (c.IsSet "white-list" = true → c.String "white-list" ≠ "*" →
      r.WhiteList = some (setAll [] (Fields (c.String "white-list"))) ∧
      (∃ m, r.WhiteList = some m ∧ (m.map Prod.fst).Nodup ∧
        (∀ id, id ∈ m.map Prod.fst ↔ id ∈ tokens (c.String "white-list")) ∧
        (∀ id, GoMap.get m id = true ↔ id ∈ tokens (c.String "white-list"))) ∧
      (∀ (fs2 : FileSystem) (c2 : Context) (r2 : Config), Parse fs2 c2 = .ok r2 →
        c2.IsSet "white-list" = true → c2.String "white-list" = c.String "white-list" →
        r2.WhiteList = r.WhiteList)) ∧
    (c.IsSet "white-list" = false →
      ∀ cfg, fileLayer fs c = .ok cfg → r.WhiteList = cfg.WhiteList) := by
  have hw := Parse_WhiteList fs c r h
  refine ⟨fun hs hne => ?_, fun hs cfg hf => ?_⟩
  · rw [if_pos hs, if_neg hne] at hw
    obtain ⟨g1, g2, g3, -⟩ := setAll_Fields (c.String "white-list")
    refine ⟨hw, ⟨_, hw, g1, g2, g3⟩, ?_⟩
    intro fs2 c2 r2 h2 hs2 heq
    rw [hw, Parse_WhiteList fs2 c2 r2 h2, if_pos hs2, heq, if_neg hne]
  · rw [hw, hs, fileLayer_WhiteList fs c cfg hf]
    rfl

/-- Witness for C10: the file lists `alice` and `bob`, the flag lists `carol`;
only `carol` is in the resolved whitelist. -/
theorem Parse_flag_WhiteList_replaces_witness :
    Parse listFs carolCtx = .ok { defaults with WhiteList := some [("carol", true)] } ∧
    some [("carol", true)] = some (setAll [] (Fields (carolCtx.String "white-list"))) :=
  ⟨rfl, ((Parse_flag_WhiteList_replaces listFs carolCtx
    { defaults with WhiteList := some [("carol", true)] } rfl).1 rfl (by decide)).1⟩

/-! ## Separate TLS identity -/

/-- C11: on a successful run in which `SeparateSslConfig` resolves to true and
both webui flags are set, the webui certificate and key are the values of
those flags, whatever the device fields and the file's webui keys are. -/
theorem Parse_separate_webui_flags (fs : FileSystem) (c : Context) (r : Config)
    (h : Parse fs c = .ok r) (hsep : r.SeparateSslConfig = true)
    (hc : c.IsSet "webui-ssl-cert" = true) (hk : c.IsSet "webui-ssl-key" = true) :
    r.WebUISslCert = c.String "webui-ssl-cert" ∧ r.WebUISslKey = c.String "webui-ssl-key" := by
  obtain ⟨cfg, hf, -⟩ := Parse_ok fs c r h
  obtain ⟨w1, w2⟩ := Parse_webui fs c cfg r hf h
  rw [w1, w2, if_pos hsep, if_pos hsep, getFlagOpt_string, getFlagOpt_string, if_pos hc,
    if_pos hk]
  exact ⟨rfl, rfl⟩

/-- Witness for C11: the file asks for separate TLS mode and gives its own
webui certificate and key, both webui flags are set; the flags' values are
returned. -/
theorem Parse_separate_webui_flags_witness :
    Parse ownWebFs webFlagsCtx = .ok webFlagsCfg ∧
    webFlagsCfg.WebUISslCert = webFlagsCtx.String "webui-ssl-cert" ∧
    webFlagsCfg.WebUISslKey = webFlagsCtx.String "webui-ssl-key" :=
  ⟨rfl, Parse_separate_webui_flags ownWebFs webFlagsCtx webFlagsCfg rfl rfl rfl rfl⟩

/-! ## Boolean keys with a text that is not a boolean -/

theorem ParseBool_not_literal (v : String) (hb : (ParseBool v).2 = false) :
    (ParseBool v).1 = false := by
  unfold ParseBool at hb ⊢
  split_ifs at hb ⊢
  rfl

/-- Counterexample to C12 as stated: the text `maybe` is not a boolean
literal, yet `getConfigOpt` overwrites the prior value true with false, and a
file with `local-auth: maybe` and no flag resolves `LocalAuth` to false, not
to its default true. -/
theorem getConfigOpt_overwrites_on_mismatch :
    (ParseBool "maybe").2 = false ∧
    getConfigOpt (docOf [("local-auth", "maybe")]) "local-auth" true = false ∧
    confOnlyCtx.IsSet "local-auth" = false ∧
    defaults.LocalAuth = true ∧
    Parse maybeFs confOnlyCtx = .ok { defaults with LocalAuth := false } :=
  ⟨by decide, by decide, rfl, rfl, rfl⟩

/-- C12, amended: when the document has a boolean key with a text that is not
a boolean literal, `getConfigOpt` sets the destination to false whatever its
prior value, without an error; so on a successful run each of the three
boolean options whose flag is not set and whose file text is not a boolean
literal resolves to false. -/
theorem getConfigOpt_bool_not_literal (fs : FileSystem) (c : Context) (v : String)
    (hb : (ParseBool v).2 = false) :
    (∀ (y : YamlFile) (name : String) (opt : Bool), y.Get name = some v →
      getConfigOpt y name opt = false) ∧
    ∀ r, Parse fs c = .ok r →
      (c.IsSet "disable-sign-up" = false → fileValue fs c "disable-sign-up" = some v →
        r.DisableSignUp = false) ∧
      (c.IsSet "local-auth" = false → fileValue fs c "local-auth" = some v →
        r.LocalAuth = false) ∧
      (c.IsSet "separate-ssl-config" = false → fileValue fs c "separate-ssl-config" = some v →
        r.SeparateSslConfig = false) := by
  have hv := ParseBool_not_literal v hb
  refine ⟨fun y name opt hy => ?_, fun r h => ?_⟩
  · rw [getConfigOpt_bool, hy]
    exact hv
  · obtain ⟨-, -, -, -, -, -, -, -, -, -, -, s12, s13, s14⟩ := Parse_scalar_fields fs c r h
    refine ⟨fun hs hf => ?_, fun hs hf => ?_, fun hs hf => ?_⟩
    · rw [s12]; simp [layeredBool, hs, hf, hv]
    · rw [s13]; simp [layeredBool, hs, hf, hv]
    · rw [s14]; simp [layeredBool, hs, hf, hv]

/-- Witness for C12, amended: with `local-auth: maybe` in the file and no
flag, `Parse` succeeds and `LocalAuth` is false. -/
theorem getConfigOpt_bool_not_literal_witness :
    Parse maybeFs confOnlyCtx = .ok { defaults with LocalAuth := false } ∧
    ({ defaults with LocalAuth := false } : Config).LocalAuth = false :=
  ⟨rfl, ((getConfigOpt_bool_not_literal maybeFs confOnlyCtx "maybe" (by decide)).2
    { defaults with LocalAuth := false } rfl).2.1 rfl rfl⟩

/-! ## Keys the file layer does not read -/

theorem overlayYaml_congr (y1 y2 : YamlFile) (cfg : Config)
    (hagree : ∀ k ∈ recognisedKeys, y1.Get k = y2.Get k) :
    overlayYaml y1 cfg = overlayYaml y2 cfg := by
  have e1 := hagree "addr-dev" (by simp [recognisedKeys])
  have e2 := hagree "addr-user" (by simp [recognisedKeys])
  have e3 := hagree "addr-http-proxy" (by simp [recognisedKeys])
  have e4 := hagree "disable-sign-up" (by simp [recognisedKeys])
  have e5 := hagree "http-proxy-redir-url" (by simp [recognisedKeys])
  have e6 := hagree "http-proxy-redir-domain" (by simp [recognisedKeys])
  have e7 := hagree "ssl-cert" (by simp [recognisedKeys])
  have e8 := hagree "ssl-key" (by simp [recognisedKeys])
  have e9 := hagree "ssl-cacert" (by simp [recognisedKeys])
  have e10 := hagree "separate-ssl-config" (by simp [recognisedKeys])
  have e11 := hagree "webui-ssl-cert" (by simp [recognisedKeys])
  have e12 := hagree "webui-ssl-key" (by simp [recognisedKeys])
  have e13 := hagree "token" (by simp [recognisedKeys])
  have e14 := hagree "dev-auth-url" (by simp [recognisedKeys])
  have e15 := hagree "db" (by simp [recognisedKeys])
  have e16 := hagree "local-auth" (by simp [recognisedKeys])
  have e17 := hagree "white-list" (by simp [recognisedKeys])
  simp only [overlayYaml, getConfigOpt, e1, e2, e3, e4, e5, e6, e7, e8, e9, e10, e11, e12,
    e13, e14, e15, e16, e17]

/-- C13: two documents that agree, in presence and value, on the seventeen
recognised keys give the same result of `Parse` (the same configuration or
the same error) for the same flags and the same state of the paths, whatever
other keys they hold. -/
theorem Parse_ignores_unknown_keys (fs1 fs2 : FileSystem) (c : Context) (y1 y2 : YamlFile)
    (hL : fs1.Lstat = fs2.Lstat)
    (h1 : fs1.ReadFile (c.String "conf") = .ok y1)
    (h2 : fs2.ReadFile (c.String "conf") = .ok y2)
    (hagree : ∀ k ∈ recognisedKeys, y1.Get k = y2.Get k) :
    Parse fs1 c = Parse fs2 c := by
  have hf : fileLayer fs1 c = fileLayer fs2 c := by
    unfold fileLayer parseYamlCfg
    dsimp only
    rw [h1, h2]
    dsimp only
    rw [overlayYaml_congr y1 y2 defaults hagree]
  have hcheck : ∀ cfg, checkPaths fs1 cfg = checkPaths fs2 cfg := by
    intro cfg
    unfold checkPaths
    rw [hL]
  unfold Parse
  rw [hf]
  cases fileLayer fs2 c with
  | error e => rfl
  | ok cfg => exact hcheck (flagLayer c cfg)

/-- Witness for C13: the second document adds `log-level` and
`http-proxy-port`, which the file layer does not read; both runs return the
same configuration. -/
theorem Parse_ignores_unknown_keys_witness :
    Parse addrFs addrCtx = Parse addrExtraFs addrCtx ∧
    Parse addrExtraFs addrCtx = .ok { defaults with AddrDev := ":6000", AddrUser := ":7001" } :=
  ⟨Parse_ignores_unknown_keys addrFs addrExtraFs addrCtx
    (docOf [("addr-dev", ":6000"), ("addr-user", ":6001")])
    (docOf [("log-level", "debug"), ("addr-dev", ":6000"), ("addr-user", ":6001"),
      ("http-proxy-port", "8080")])
    rfl rfl rfl (by decide), rfl⟩

/-! ## The proxy port -/

/-- C14: on every successful run the returned `HttpProxyPort` is 0, whatever
the file and the flags hold. -/
theorem Parse_HttpProxyPort (fs : FileSystem) (c : Context) (r : Config)
    (h : Parse fs c = .ok r) : r.HttpProxyPort = 0 := by
  obtain ⟨cfg, hf, rfl⟩ := Parse_ok fs c r h
  rw [(flagLayer_fields c cfg).2.2.2.2.2.2.1]
  exact fileLayer_HttpProxyPort fs c cfg hf

/-- Witness for C14: a document with an `http-proxy-port` key leaves the port
at 0. -/
theorem Parse_HttpProxyPort_witness :
    Parse addrExtraFs addrCtx = .ok { defaults with AddrDev := ":6000", AddrUser := ":7001" } ∧
    ({ defaults with AddrDev := ":6000", AddrUser := ":7001" } : Config).HttpProxyPort = 0 :=
  ⟨rfl, Parse_HttpProxyPort addrExtraFs addrCtx
    { defaults with AddrDev := ":6000", AddrUser := ":7001" } rfl⟩

/-! ## The webui keys of the file -/

/-- C15: `parseYamlCfg` on a readable document returns a configuration whose
`SeparateSslConfig` is the prior value overlaid with the `separate-ssl-config`
key; when that is false both webui fields keep their prior values even if the
document has the webui keys, and when it is true each webui field is the
document's value if its key is present and its prior value if not. -/
theorem parseYamlCfg_webui_conditional (fs : FileSystem) (cfg : Config) (conf : String)
    (y : YamlFile) (hy : fs.ReadFile conf = .ok y) :
    ∃ out, parseYamlCfg fs cfg conf = .ok out ∧
      out.SeparateSslConfig = getConfigOpt y "separate-ssl-config" cfg.SeparateSslConfig ∧
      (out.SeparateSslConfig = false →
        out.WebUISslCert = cfg.WebUISslCert ∧ out.WebUISslKey = cfg.WebUISslKey) ∧
      (out.SeparateSslConfig = true →
        (∀ v, y.Get "webui-ssl-cert" = some v → out.WebUISslCert = v) ∧
        (y.Get "webui-ssl-cert" = none → out.WebUISslCert = cfg.WebUISslCert) ∧
        (∀ v, y.Get "webui-ssl-key" = some v → out.WebUISslKey = v) ∧
        (y.Get "webui-ssl-key" = none → out.WebUISslKey = cfg.WebUISslKey)) := by
  have hsep := (overlayYaml_fields y cfg).2.2.2.2.2.2.2.2.2.2.2.2.2.2
  obtain ⟨w1, w2⟩ := overlayYaml_webui y cfg
  refine ⟨overlayYaml y cfg, by rw [parseYamlCfg, hy], hsep, fun h => ?_, fun h => ?_⟩
  · rw [hsep] at h
    rw [w1, w2, h]
    exact ⟨rfl, rfl⟩
  · rw [hsep] at h
    rw [w1, w2, if_pos h, if_pos h, getConfigOpt_string, getConfigOpt_string]
    refine ⟨fun v hv => ?_, fun hv => ?_, fun v hv => ?_, fun hv => ?_⟩ <;> rw [hv]

/-- Witness for C15: the document of `webOnlyFs` has both webui keys and no
`separate-ssl-config` key; read onto the defaults it leaves both webui fields
empty. -/
theorem parseYamlCfg_webui_conditional_witness :
    parseYamlCfg webOnlyFs defaults "rttys.conf"
      = .ok { defaults with SslCert := "/dev.crt", SslKey := "/dev.key" } ∧
    ∃ out, parseYamlCfg webOnlyFs defaults "rttys.conf" = .ok out ∧
      out.SeparateSslConfig
        = getConfigOpt webOnlyDoc "separate-ssl-config" defaults.SeparateSslConfig ∧
      (out.SeparateSslConfig = false →
        out.WebUISslCert = defaults.WebUISslCert ∧ out.WebUISslKey = defaults.WebUISslKey) ∧
      (out.SeparateSslConfig = true →
        (∀ v, webOnlyDoc.Get "webui-ssl-cert" = some v → out.WebUISslCert = v) ∧
        (webOnlyDoc.Get "webui-ssl-cert" = none → out.WebUISslCert = defaults.WebUISslCert) ∧
        (∀ v, webOnlyDoc.Get "webui-ssl-key" = some v → out.WebUISslKey = v) ∧
        (webOnlyDoc.Get "webui-ssl-key" = none → out.WebUISslKey = defaults.WebUISslKey)) :=
  ⟨rfl, parseYamlCfg_webui_conditional webOnlyFs defaults "rttys.conf" webOnlyDoc rfl⟩

theorem fileLayer_webui_of_not_separate (fs : FileSystem) (c : Context) (cfg : Config)
    (hf : fileLayer fs c = .ok cfg)
    (hs : ∀ v, fileValue fs c "separate-ssl-config" = some v → (ParseBool v).1 = false) :
    cfg.WebUISslCert = "" ∧ cfg.WebUISslKey = "" := by
  rcases fileLayer_get fs c cfg "separate-ssl-config" hf with ⟨-, rfl, -⟩ | ⟨y, rfl, hv⟩
  · exact ⟨rfl, rfl⟩
  · obtain ⟨w1, w2⟩ := overlayYaml_webui y defaults
    have hsep : getConfigOpt y "separate-ssl-config" defaults.SeparateSslConfig = false := by
      rw [getConfigOpt_bool]
      cases hg : y.Get "separate-ssl-config" with
      | none => rfl
      | some v => exact hs v (by rw [hv, hg])
    rw [w1, w2, hsep]
    exact ⟨rfl, rfl⟩

/-- C16: when the file does not set `separate-ssl-config` to true, the
`separate-ssl-config` flag is set to true and neither webui flag is set, a
successful run returns an empty webui certificate and key, whatever webui
keys the file holds and whatever the device certificate and key are. -/
theorem Parse_separate_by_flag_only (fs : FileSystem) (c : Context) (r : Config)
    (h : Parse fs c = .ok r)
    (hfile : ∀ v, fileValue fs c "separate-ssl-config" = some v → (ParseBool v).1 = false)
    (hset : c.IsSet "separate-ssl-config" = true) (hval : c.Bool "separate-ssl-config" = true)
    (hc : c.IsSet "webui-ssl-cert" = false) (hk : c.IsSet "webui-ssl-key" = false) :
    r.SeparateSslConfig = true ∧ r.WebUISslCert = "" ∧ r.WebUISslKey = "" := by
  obtain ⟨cfg, hf, hr⟩ := Parse_ok fs c r h
  obtain ⟨w1, w2⟩ := Parse_webui fs c cfg r hf h
  obtain ⟨f1, f2⟩ := fileLayer_webui_of_not_separate fs c cfg hf hfile
  have hsep : r.SeparateSslConfig = true := by
    rw [hr, (flagLayer_fields c cfg).2.2.2.2.2.2.2.2.2.2.2.2.2.2, getFlagOpt_bool, if_pos hset]
    exact hval
  refine ⟨hsep, ?_, ?_⟩
  · rw [w1, if_pos hsep, getFlagOpt_string, hc, f1]; rfl
  · rw [w2, if_pos hsep, getFlagOpt_string, hk, f2]; rfl

/-- Witness for C16: the file gives the device and the webui certificate and
key, all existing, but no `separate-ssl-config`; with the flag switching the
mode on, both webui fields come out empty. -/
theorem Parse_separate_by_flag_only_witness :
    Parse webOnlyFs separateCtx = .ok separateCfg ∧
    separateCfg.SeparateSslConfig = true ∧ separateCfg.WebUISslCert = "" ∧
    separateCfg.WebUISslKey = "" :=
  ⟨rfl, Parse_separate_by_flag_only webOnlyFs separateCtx separateCfg rfl
    (fun v hv => by
      have hnone : fileValue webOnlyFs separateCtx "separate-ssl-config" = none := rfl
      rw [hnone] at hv
      cases hv) rfl rfl rfl rfl⟩

end config
